import Mathlib

set_option maxRecDepth 100000

/-!
Verification of the ZK-GovProof circom circuits and proof-lifecycle scripts.

The circuits (`compute_threshold`, `evaluation_attestation`, `policy_compliance`)
operate over the BN254 scalar field; we embed signals as elements of `ZMod p`
for the concrete prime modulus `p` used by circom/snarkjs, and embed each
template constraints and witness-generation hints directly from the source.
-/

/-- The BN254 scalar field modulus used by circom 2.1.0 / snarkjs (Groth16). -/
def p : ℕ := 21888242871839275222246405745257275088548364400416034343698204186575808495617

/-- Field of circuit signals. -/
abbrev F := ZMod p

instance : NeZero p := ⟨by decide⟩

/-! ### Fast modular exponentiation, used to check the Lucas primality certificate -/

/-- Binary modular exponentiation with explicit fuel (the fuel bounds the bit
length of the exponent, so that the kernel can evaluate it). -/
def powModAux : ℕ → ℕ → ℕ → ℕ → ℕ
  | 0, _, _, m => 1 % m
  | fuel + 1, b, e, m =>
    if e = 0 then 1 % m
    else
      let h := powModAux fuel b (e / 2) m
      if e % 2 = 0 then h * h % m else h * h % m * b % m

/-- `powMod b e m = b ^ e % m` for exponents below `2 ^ 256`. -/
def powMod (b e m : ℕ) : ℕ := powModAux 256 b e m

/-! ### Embedding of the circom templates

Each template is embedded as (a) a Boolean constraint check over its input
signals and a record of its internal/output signals, transcribing the `===`
and `<==` constraints of the source, and (b) a witness-generation function
transcribing the `<--` hint assignments evaluated by the compiled witness
calculator.
-/

/-- `lc1` of `Num2Bits`: the linear combination `Σ out[i] * 2^i`
(accumulated with the doubling variable `e2` in the source). -/
def bitsLC : List F → F
  | [] => 0
  | b :: bs => b + 2 * bitsLC bs

/-- Witness hints of `Num2Bits(n)`: `out[i] <-- (in >> i) & 1`, where `>>`
acts on the canonical integer representative of the field element. -/
def num2BitsWitness (n : ℕ) (x : F) : List F :=
  (List.range n).map fun i => (((x.val >>> i) &&& 1 : ℕ) : F)

/-- Constraints of `Num2Bits(n)`: `out[i] * (out[i] - 1) === 0` for each bit
and `lc1 === in`. -/
def num2Bits_check (n : ℕ) (x : F) (out : List F) : Bool :=
  out.length == n && out.all (fun b => b * (b - 1) == 0) && bitsLC out == x

/-- Constraints of `LessThan(n)` (the source asserts `n <= 252`):
`n2b.in <== in[0] + (1<<n) - in[1]` and `out <== 1 - n2b.out[n]`. -/
def lessThan_check (n : ℕ) (in0 in1 : F) (n2bOut : List F) (out : F) : Bool :=
  num2Bits_check (n + 1) (in0 + ((2 ^ n : ℕ) : F) - in1) n2bOut &&
  out == 1 - n2bOut.getD n 0

/-- The bits computed by the witness calculator for the `Num2Bits(n+1)`
component inside `LessThan(n)`. -/
def lessThan_witnessBits (n : ℕ) (in0 in1 : F) : List F :=
  num2BitsWitness (n + 1) (in0 + ((2 ^ n : ℕ) : F) - in1)

/-- The output signal of `LessThan(n)` as computed by the witness calculator. -/
def lessThan_out (n : ℕ) (in0 in1 : F) : F :=
  1 - (lessThan_witnessBits n in0 in1).getD n 0

/-- Constraints of `GreaterEqThan(n)`: a `LessThan(n)` component on the same
inputs and `out <== 1 - lt.out`. -/
def greaterEqThan_check (n : ℕ) (in0 in1 : F) (ltBits : List F) (ltOut out : F) : Bool :=
  lessThan_check n in0 in1 ltBits ltOut && out == 1 - ltOut

/-- The output signal of `GreaterEqThan(n)` as computed by the witness
calculator. -/
def greaterEqThan_out (n : ℕ) (in0 in1 : F) : F := 1 - lessThan_out n in0 in1

/-- Internal and output signals of `ComputeThreshold`. -/
structure ComputeThresholdWitness where
  difference : F
  rangeBits : List F
  rangeOut : F
  valid : F
deriving DecidableEq

/-- Constraints of the `ComputeThreshold` template:
`difference <== threshold - privateCompute`, a `LessThan(252)` component
`rangeCheck` on `(privateCompute, threshold)`, `valid <== rangeCheck.out`,
and the hard constraint `valid === 1`. -/
def ComputeThreshold_check (privateCompute threshold : F) (w : ComputeThresholdWitness) : Bool :=
  (w.difference == threshold - privateCompute) &&
  lessThan_check 252 privateCompute threshold w.rangeBits w.rangeOut &&
  (w.valid == w.rangeOut) &&
  (w.valid == 1)

/-- The assignment computed by the witness calculator for `ComputeThreshold`. -/
def ComputeThreshold_witness (privateCompute threshold : F) : ComputeThresholdWitness :=
  { difference := threshold - privateCompute
    rangeBits := lessThan_witnessBits 252 privateCompute threshold
    rangeOut := lessThan_out 252 privateCompute threshold
    valid := lessThan_out 252 privateCompute threshold }

/-- A satisfying witness for all constraints of `ComputeThreshold` exists. -/
def ComputeThreshold_Satisfiable (privateCompute threshold : F) : Prop :=
  ∃ w, ComputeThreshold_check privateCompute threshold w = true

/-- The chain `completedSum[0] <== flags[0]`,
`completedSum[i] <== completedSum[i-1] + flags[i]` of the aggregation
templates, checked with an accumulator (initially `0`, so the first equation
reads `s₀ = 0 + f₀`). -/
def sumsFrom (acc : F) : List F → List F → Bool
  | [], [] => true
  | [], _ :: _ => false
  | _ :: _, [] => false
  | f :: fs, s :: ss => s == acc + f && sumsFrom s fs ss

/-- The prefix-sum signals as computed by the witness calculator. -/
def sumsList (acc : F) : List F → List F
  | [] => []
  | f :: fs => (acc + f) :: sumsList (acc + f) fs

/-- Internal and output signals of the two flag-aggregation templates
(`EvaluationAttestation(N)` and `PolicyCompliance(N)` have identical
constraint structure). -/
structure FlagAggWitness where
  sums : List F
  geBits : List F
  geLtOut : F
  geOut : F
  valid : F
deriving DecidableEq

/-- Constraints shared by `EvaluationAttestation(N)` / `PolicyCompliance(N)`:
booleanity `f * (f - 1) === 0` of every flag, the prefix-sum chain, a
`GreaterEqThan(8)` component on `(sums[N-1], minRequired)`, `valid <== ge.out`,
and the hard constraint `valid === 1`. -/
def flagAgg_check (N : ℕ) (flags : List F) (minRequired : F) (w : FlagAggWitness) : Bool :=
  (flags.length == N) &&
  flags.all (fun f => f * (f - 1) == 0) &&
  (w.sums.length == N) &&
  sumsFrom 0 flags w.sums &&
  greaterEqThan_check 8 (w.sums.getD (N - 1) 0) minRequired w.geBits w.geLtOut w.geOut &&
  (w.valid == w.geOut) &&
  (w.valid == 1)

/-- The assignment computed by the witness calculator for the aggregation
templates. -/
def flagAgg_witness (N : ℕ) (flags : List F) (minRequired : F) : FlagAggWitness :=
  { sums := sumsList 0 flags
    geBits := lessThan_witnessBits 8 ((sumsList 0 flags).getD (N - 1) 0) minRequired
    geLtOut := lessThan_out 8 ((sumsList 0 flags).getD (N - 1) 0) minRequired
    geOut := 1 - lessThan_out 8 ((sumsList 0 flags).getD (N - 1) 0) minRequired
    valid := 1 - lessThan_out 8 ((sumsList 0 flags).getD (N - 1) 0) minRequired }

/-- Constraints of `EvaluationAttestation(5)`, the `main` component of
`evaluation_attestation.circom`. -/
def EvaluationAttestation_check (evaluationFlags : List F) (requiredCount : F)
    (w : FlagAggWitness) : Bool :=
  flagAgg_check 5 evaluationFlags requiredCount w

/-- Constraints of `PolicyCompliance(8)`, the `main` component of
`policy_compliance.circom`. -/
def PolicyCompliance_check (policyItems : List F) (minRequired : F)
    (w : FlagAggWitness) : Bool :=
  flagAgg_check 8 policyItems minRequired w

/-- A satisfying witness for all constraints of `EvaluationAttestation(5)`
exists. -/
def EvaluationAttestation_Satisfiable (evaluationFlags : List F) (requiredCount : F) : Prop :=
  ∃ w, EvaluationAttestation_check evaluationFlags requiredCount w = true

/-- A satisfying witness for all constraints of `PolicyCompliance(8)` exists. -/
def PolicyCompliance_Satisfiable (policyItems : List F) (minRequired : F) : Prop :=
  ∃ w, PolicyCompliance_check policyItems minRequired w = true

/-! ### Proof lifecycle (generation, verification, persistence)

The scripts call `groth16.fullProve(input, wasm, zkey)` and
`groth16.verify(vKey, publicSignals, proof)` from snarkjs.  The witness
calculator (compiled from the circuits above) evaluates the `<--` hints and
aborts when a `===` constraint does not hold; §4.5 of the specification fixes
the contract of the external engine.  A Groth16 proof is modelled as a token
recording the attested circuit constraint system and the public signal
vector (outputs first, then declared public inputs) it was produced for.
-/

inductive ProofError where
  | ConstraintUnsatisfiable
deriving DecidableEq

inductive CircuitId where
  | compute_threshold
  | evaluation_attestation
  | policy_compliance
deriving DecidableEq

/-- Modelled from the spec: the proof object emitted by the external proving
engine, "a small, constant-size cryptographic object attesting a witness
exists", abstracted as a token recording the attested circuit and the bound
public signal vector. -/
structure ProofModel where
  circuit : CircuitId
  publicSignals : List F
deriving DecidableEq

instance {ε α : Type} [DecidableEq ε] [DecidableEq α] : DecidableEq (Except ε α) := fun x y =>
  match x, y with
  | .ok a, .ok b =>
    if h : a = b then isTrue (by rw [h]) else isFalse (fun hc => by cases hc; exact h rfl)
  | .error a, .error b =>
    if h : a = b then isTrue (by rw [h]) else isFalse (fun hc => by cases hc; exact h rfl)
  | .ok _, .error _ => isFalse (fun hc => Except.noConfusion hc)
  | .error _, .ok _ => isFalse (fun hc => Except.noConfusion hc)

/-- `groth16.fullProve` on `compute_threshold.circom`: the witness calculator
evaluates the hint assignments; generation succeeds iff they satisfy every
constraint, and the public signals are `[valid, threshold]` (the circuit
output followed by the declared public input). -/
def ComputeThreshold_prove (privateCompute threshold : F) : Except ProofError ProofModel :=
  let w := ComputeThreshold_witness privateCompute threshold
  if ComputeThreshold_check privateCompute threshold w then
    .ok ⟨.compute_threshold, [w.valid, threshold]⟩
  else
    .error .ConstraintUnsatisfiable

/-- `groth16.fullProve` on an aggregation circuit, with public signals
`[valid, minRequired]`. -/
def flagAgg_prove (N : ℕ) (cid : CircuitId) (flags : List F) (minRequired : F) :
    Except ProofError ProofModel :=
  let w := flagAgg_witness N flags minRequired
  if flagAgg_check N flags minRequired w then
    .ok ⟨cid, [w.valid, minRequired]⟩
  else
    .error .ConstraintUnsatisfiable

/-- `groth16.fullProve` on `evaluation_attestation.circom` (`main` is
`EvaluationAttestation(5)` with `requiredCount` public). -/
def EvaluationAttestation_prove (evaluationFlags : List F) (requiredCount : F) :
    Except ProofError ProofModel :=
  flagAgg_prove 5 .evaluation_attestation evaluationFlags requiredCount

/-- `groth16.fullProve` on `policy_compliance.circom` (`main` is
`PolicyCompliance(8)` with `minRequired` public). -/
def PolicyCompliance_prove (policyItems : List F) (minRequired : F) :
    Except ProofError ProofModel :=
  flagAgg_prove 8 .policy_compliance policyItems minRequired

/-- Modelled from the spec: the external `groth16.verify(vKey, publicSignals,
proof)` of §4.5, which "must return false for any tampered proof, mismatched
public input, or wrong key, and true only for a proof derived from a genuine
satisfying witness under the matching key".  A verification key is identified
by the circuit it was produced for. -/
def groth16_verify (vkCircuit : CircuitId) (publicSignals : List F) (pf : ProofModel) : Bool :=
  pf.circuit == vkCircuit && pf.publicSignals == publicSignals

/-- Number of flags equal to `1`. -/
def countOnes (flags : List F) : ℕ := (flags.filter fun f => f == 1).length

/-! ### Persistence and composition layer -/

/-- Content of a persisted artifact file. -/
inductive FileData where
  | proofFile (pf : ProofModel)
  | publicFile (signals : List F)
deriving DecidableEq

/-- The `data/` directory, as an association list from path to content
(`fs.writeFileSync` semantics: the most recent write, listed first, wins). -/
abbrev FileSystem : Type := List (String × FileData)

/-- `fs.writeFileSync(path, data)`. -/
def writeFileSync (fs : FileSystem) (path : String) (d : FileData) : FileSystem :=
  (path, d) :: fs

/-- An input record for `groth16.fullProve`, identifying the circuit build
(wasm + zkey) and the private/public inputs passed by the scripts. -/
inductive CircuitInput where
  | compute_threshold (privateCompute threshold : F)
  | evaluation_attestation (evaluationFlags : List F) (requiredCount : F)
  | policy_compliance (policyItems : List F) (minRequired : F)

/-- The circuit name used to locate build artifacts and name output files. -/
def circuitName : CircuitInput → String
  | .compute_threshold _ _ => "compute_threshold"
  | .evaluation_attestation _ _ => "evaluation_attestation"
  | .policy_compliance _ _ => "policy_compliance"

/-- `groth16.fullProve(input, wasmPath, zkeyPath)` dispatched on the circuit. -/
def groth16_fullProve : CircuitInput → Except ProofError ProofModel
  | .compute_threshold v T => ComputeThreshold_prove v T
  | .evaluation_attestation flags k => EvaluationAttestation_prove flags k
  | .policy_compliance items k => PolicyCompliance_prove items k

/-- `generateProof(circuitName, input)` of `generate-proof.js` (and
`fullProveAndPersist` of `demo.js`): run `groth16.fullProve`, and only on
success write `{name}_proof.json` and `{name}_public.json`; a throw from the
proving call leaves the data directory untouched. -/
def generateProof (input : CircuitInput) (fs : FileSystem) :
    FileSystem × Except ProofError ProofModel :=
  match groth16_fullProve input with
  | .error e => (fs, .error e)
  | .ok pf =>
    let fs1 := writeFileSync fs (circuitName input ++ "_proof.json") (.proofFile pf)
    let fs2 := writeFileSync fs1 (circuitName input ++ "_public.json") (.publicFile pf.publicSignals)
    (fs2, .ok pf)

/-- One member of the `proofs` object of the composite artifact:
`{proof, publicSignals, claim}`. -/
structure CompositeEntry where
  proof : ProofModel
  publicSignals : List F
  claim : String
deriving DecidableEq

/-- The `proofs` object of the composite artifact, keyed by the three fixed
circuit names. -/
structure CompositeProofs where
  compute_threshold : CompositeEntry
  evaluation_attestation : CompositeEntry
  policy_compliance : CompositeEntry
deriving DecidableEq

/-- The `metadata` object of the composite artifact. -/
structure CompositeMetadata where
  submitter : String
  framework : String
  compositionMethod : String
deriving DecidableEq

/-- The composite artifact assembled by `composeProofs` in
`composite-proof.js`. -/
structure CompositeProofArtifact where
  version : String
  timestamp : String
  proofs : CompositeProofs
  metadata : CompositeMetadata
deriving DecidableEq

/-- `composeProofs(proofs)` of `composite-proof.js`: bundles the three
`(proof, publicSignals)` results (the timestamp is the current time, passed
here as `now`). -/
def composeProofs (now : String) (compute evaluation policy : ProofModel × List F) :
    CompositeProofArtifact :=
  { version := "1.0"
    timestamp := now
    proofs :=
      { compute_threshold :=
          ⟨compute.1, compute.2, "Training compute below regulatory threshold"⟩
        evaluation_attestation :=
          ⟨evaluation.1, evaluation.2, "All required safety evaluations completed"⟩
        policy_compliance :=
          ⟨policy.1, policy.2, "Responsible Scaling Policy requirements met"⟩ }
    metadata :=
      { submitter := "AI Lab Example Inc."
        framework := "EU AI Act + RSP"
        compositionMethod := "bundled_verification" } }

/-- `verifyCompositeProof(compositeProof)` of `composite-proof.js`: for each of
the three circuits, load the verification key of that circuit and run
`groth16.verify` on the stored member public signals and proof, collecting
one boolean per circuit.  The external verifier is a parameter. -/
def verifyCompositeProof (verifier : CircuitId → List F → ProofModel → Bool)
    (c : CompositeProofArtifact) : List (CircuitId × Bool) :=
  [(.compute_threshold,
      verifier .compute_threshold c.proofs.compute_threshold.publicSignals
        c.proofs.compute_threshold.proof),
   (.evaluation_attestation,
      verifier .evaluation_attestation c.proofs.evaluation_attestation.publicSignals
        c.proofs.evaluation_attestation.proof),
   (.policy_compliance,
      verifier .policy_compliance c.proofs.policy_compliance.publicSignals
        c.proofs.policy_compliance.proof)]

/-- `Object.values(results).every(v => v)` in `main` of `composite-proof.js`. -/
def allValid (results : List (CircuitId × Bool)) : Bool :=
  results.all fun r => r.2

/-- One entry of the `claims` map in the composite artifact schema of the
specification (§6): `{proof, publicInputVector, label}`. -/
structure SpecClaimEntry where
  proof : ProofModel
  publicInputVector : List F
  label : String
deriving DecidableEq

/-- The composite artifact schema of the specification (§6):
`{version, timestamp, submitter, framework, claims: {claimId -> ...}}`,
written from the words of the spec for comparison with the artifact built by
`composeProofs`. -/
structure SpecCompositeArtifact where
  version : String
  timestamp : String
  submitter : String
  framework : String
  claims : List (String × SpecClaimEntry)
deriving DecidableEq

/-- Reading of a concrete composite artifact under the schema of the specification: submitter and framework are carried in the artifact metadata, and
the claims map is the `proofs` object keyed by claim id. -/
def toSpecArtifact (c : CompositeProofArtifact) : SpecCompositeArtifact :=
  { version := c.version
    timestamp := c.timestamp
    submitter := c.metadata.submitter
    framework := c.metadata.framework
    claims :=
      [("compute_threshold",
          ⟨c.proofs.compute_threshold.proof, c.proofs.compute_threshold.publicSignals,
            c.proofs.compute_threshold.claim⟩),
       ("evaluation_attestation",
          ⟨c.proofs.evaluation_attestation.proof, c.proofs.evaluation_attestation.publicSignals,
            c.proofs.evaluation_attestation.claim⟩),
       ("policy_compliance",
          ⟨c.proofs.policy_compliance.proof, c.proofs.policy_compliance.publicSignals,
            c.proofs.policy_compliance.claim⟩)] }

theorem powModAux_eq : ∀ (fuel b e m : ℕ), e < 2 ^ fuel → powModAux fuel b e m = b ^ e % m := by
  intro fuel
  induction fuel with
  | zero =>
    intro b e m he
    have he0 : e = 0 := by simpa using he
    simp [powModAux, he0]
  | succ n ih =>
    intro b e m he
    by_cases he0 : e = 0
    · simp [powModAux, he0]
    · have h2 : (2 : ℕ) ^ (n + 1) = 2 ^ n * 2 := by rw [pow_succ]
      have hdiv : e / 2 < 2 ^ n := by
        rw [h2] at he; omega
      rw [powModAux]
      simp only [if_neg he0]
      rw [ih b (e / 2) m hdiv]
      by_cases hpar : e % 2 = 0
      · have hsum : e / 2 + e / 2 = e := by omega
        rw [if_pos hpar, ← Nat.mul_mod, ← pow_add, hsum]
      · have hsum : e / 2 + e / 2 + 1 = e := by omega
        rw [if_neg hpar, ← Nat.mul_mod, Nat.mod_mul_mod, ← pow_add, ← pow_succ, hsum]

theorem powModAux_lt : ∀ (fuel b e m : ℕ), 0 < m → powModAux fuel b e m < m := by
  intro fuel b e m hm
  cases fuel with
  | zero => exact Nat.mod_lt _ hm
  | succ n =>
    rw [powModAux]
    split
    · exact Nat.mod_lt _ hm
    · split
      · exact Nat.mod_lt _ hm
      · exact Nat.mod_lt _ hm

theorem powMod_eq (b e m : ℕ) (he : e < 2 ^ 256) : powMod b e m = b ^ e % m :=
  powModAux_eq 256 b e m he

theorem pow_natCast_eq_powMod (q b e : ℕ) (he : e < 2 ^ 256) :
    ((b : ZMod q)) ^ e = ((powMod b e q : ℕ) : ZMod q) := by
  rw [powMod_eq b e q he, ZMod.natCast_mod, Nat.cast_pow]

theorem powMod_cast_one {q b e : ℕ} (he : e < 2 ^ 256) (h : powMod b e q = 1) :
    ((b : ZMod q)) ^ e = 1 := by
  rw [pow_natCast_eq_powMod q b e he, h, Nat.cast_one]

theorem powMod_cast_ne_one {q b e : ℕ} (hq : 1 < q) (he : e < 2 ^ 256)
    (h : powMod b e q ≠ 1) : ((b : ZMod q)) ^ e ≠ 1 := by
  rw [pow_natCast_eq_powMod q b e he]
  intro hc
  apply h
  have hfact : Fact (1 < q) := ⟨hq⟩
  have hlt : powMod b e q < q := powModAux_lt 256 b e q (by omega)
  have hval := congrArg ZMod.val hc
  rwa [ZMod.val_cast_of_lt hlt, ZMod.val_one] at hval

theorem prime_eq_of_dvd_pow {r s e : ℕ} (hr : r.Prime) (hs : s.Prime) (h : r ∣ s ^ e) : r = s :=
  (Nat.prime_dvd_prime_iff_eq hr hs).mp (hr.dvd_of_dvd_pow h)

theorem prime_2 : Nat.Prime 2 := by norm_num

theorem prime_3 : Nat.Prime 3 := by norm_num

theorem prime_5 : Nat.Prime 5 := by norm_num

theorem prime_7 : Nat.Prime 7 := by norm_num

theorem prime_11 : Nat.Prime 11 := by norm_num

theorem prime_13 : Nat.Prime 13 := by norm_num

theorem prime_19 : Nat.Prime 19 := by norm_num

theorem prime_29 : Nat.Prime 29 := by norm_num

theorem prime_83 : Nat.Prime 83 := by norm_num

theorem prime_107 : Nat.Prime 107 := by norm_num

theorem prime_229 : Nat.Prime 229 := by norm_num

theorem prime_379 : Nat.Prime 379 := by norm_num

theorem prime_661 : Nat.Prime 661 := by norm_num

theorem prime_823 : Nat.Prime 823 := by norm_num

theorem prime_853 : Nat.Prime 853 := by norm_num

theorem prime_983 : Nat.Prime 983 := by norm_num

theorem prime_1637 : Nat.Prime 1637 := by norm_num

theorem prime_3691 : Nat.Prime 3691 := by norm_num

theorem prime_4999 : Nat.Prime 4999 := by norm_num

theorem prime_11003 : Nat.Prime 11003 := by norm_num

theorem prime_41927 : Nat.Prime 41927 := by norm_num

theorem prime_93001 : Nat.Prime 93001 := by norm_num

theorem prime_237073 : Nat.Prime 237073 := by norm_num

theorem prime_1593227 : Nat.Prime 1593227 := by
  have hq : (1 : ℕ) < 1593227 := by norm_num
  apply lucas_primality 1593227 ((2 : ℕ) : ZMod 1593227)
  · exact powMod_cast_one (by decide) (by decide)
  · intro r hr hdvd
    have hfac : 1593227 - 1 = 2 * (19 * (41927)) := by decide
    rw [hfac] at hdvd
    rcases (Nat.Prime.dvd_mul hr).mp hdvd with h | hdvd
    · have hre : r = 2 := (Nat.prime_dvd_prime_iff_eq hr prime_2).mp h
      subst hre
      exact powMod_cast_ne_one hq (by decide) (by decide)
    rcases (Nat.Prime.dvd_mul hr).mp hdvd with h | hdvd
    · have hre : r = 19 := (Nat.prime_dvd_prime_iff_eq hr prime_19).mp h
      subst hre
      exact powMod_cast_ne_one hq (by decide) (by decide)
    have hre : r = 41927 := (Nat.prime_dvd_prime_iff_eq hr prime_41927).mp hdvd
    subst hre
    exact powMod_cast_ne_one hq (by decide) (by decide)

theorem prime_405928799 : Nat.Prime 405928799 := by
  have hq : (1 : ℕ) < 405928799 := by norm_num
  apply lucas_primality 405928799 ((22 : ℕ) : ZMod 405928799)
  · exact powMod_cast_one (by decide) (by decide)
  · intro r hr hdvd
    have hfac : 405928799 - 1 = 2 * (11 * (3691 * (4999))) := by decide
    rw [hfac] at hdvd
    rcases (Nat.Prime.dvd_mul hr).mp hdvd with h | hdvd
    · have hre : r = 2 := (Nat.prime_dvd_prime_iff_eq hr prime_2).mp h
      subst hre
      exact powMod_cast_ne_one hq (by decide) (by decide)
    rcases (Nat.Prime.dvd_mul hr).mp hdvd with h | hdvd
    · have hre : r = 11 := (Nat.prime_dvd_prime_iff_eq hr prime_11).mp h
      subst hre
      exact powMod_cast_ne_one hq (by decide) (by decide)
    rcases (Nat.Prime.dvd_mul hr).mp hdvd with h | hdvd
    · have hre : r = 3691 := (Nat.prime_dvd_prime_iff_eq hr prime_3691).mp h
      subst hre
      exact powMod_cast_ne_one hq (by decide) (by decide)
    have hre : r = 4999 := (Nat.prime_dvd_prime_iff_eq hr prime_4999).mp hdvd
    subst hre
    exact powMod_cast_ne_one hq (by decide) (by decide)

theorem prime_639533339 : Nat.Prime 639533339 := by
  have hq : (1 : ℕ) < 639533339 := by norm_num
  apply lucas_primality 639533339 ((2 : ℕ) : ZMod 639533339)
  · exact powMod_cast_one (by decide) (by decide)
  · intro r hr hdvd
    have hfac : 639533339 - 1 = 2 * (229 * (853 * (1637))) := by decide
    rw [hfac] at hdvd
    rcases (Nat.Prime.dvd_mul hr).mp hdvd with h | hdvd
    · have hre : r = 2 := (Nat.prime_dvd_prime_iff_eq hr prime_2).mp h
      subst hre
      exact powMod_cast_ne_one hq (by decide) (by decide)
    rcases (Nat.Prime.dvd_mul hr).mp hdvd with h | hdvd
    · have hre : r = 229 := (Nat.prime_dvd_prime_iff_eq hr prime_229).mp h
      subst hre
      exact powMod_cast_ne_one hq (by decide) (by decide)
    rcases (Nat.Prime.dvd_mul hr).mp hdvd with h | hdvd
    · have hre : r = 853 := (Nat.prime_dvd_prime_iff_eq hr prime_853).mp h
      subst hre
      exact powMod_cast_ne_one hq (by decide) (by decide)
    have hre : r = 1637 := (Nat.prime_dvd_prime_iff_eq hr prime_1637).mp hdvd
    subst hre
    exact powMod_cast_ne_one hq (by decide) (by decide)

theorem prime_12048837557 : Nat.Prime 12048837557 := by
  have hq : (1 : ℕ) < 12048837557 := by norm_num
  apply lucas_primality 12048837557 ((2 : ℕ) : ZMod 12048837557)
  · exact powMod_cast_one (by decide) (by decide)
  · intro r hr hdvd
    have hfac : 12048837557 - 1 = 2 ^ 2 * (7 ^ 2 * (661 * (93001))) := by decide
    rw [hfac] at hdvd
    rcases (Nat.Prime.dvd_mul hr).mp hdvd with h | hdvd
    · have hre : r = 2 := prime_eq_of_dvd_pow hr prime_2 h
      subst hre
      exact powMod_cast_ne_one hq (by decide) (by decide)
    rcases (Nat.Prime.dvd_mul hr).mp hdvd with h | hdvd
    · have hre : r = 7 := prime_eq_of_dvd_pow hr prime_7 h
      subst hre
      exact powMod_cast_ne_one hq (by decide) (by decide)
    rcases (Nat.Prime.dvd_mul hr).mp hdvd with h | hdvd
    · have hre : r = 661 := (Nat.prime_dvd_prime_iff_eq hr prime_661).mp h
      subst hre
      exact powMod_cast_ne_one hq (by decide) (by decide)
    have hre : r = 93001 := (Nat.prime_dvd_prime_iff_eq hr prime_93001).mp hdvd
    subst hre
    exact powMod_cast_ne_one hq (by decide) (by decide)

theorem prime_5156902474397 : Nat.Prime 5156902474397 := by
  have hq : (1 : ℕ) < 5156902474397 := by norm_num
  apply lucas_primality 5156902474397 ((2 : ℕ) : ZMod 5156902474397)
  · exact powMod_cast_one (by decide) (by decide)
  · intro r hr hdvd
    have hfac : 5156902474397 - 1 = 2 ^ 2 * (107 * (12048837557)) := by decide
    rw [hfac] at hdvd
    rcases (Nat.Prime.dvd_mul hr).mp hdvd with h | hdvd
    · have hre : r = 2 := prime_eq_of_dvd_pow hr prime_2 h
      subst hre
      exact powMod_cast_ne_one hq (by decide) (by decide)
    rcases (Nat.Prime.dvd_mul hr).mp hdvd with h | hdvd
    · have hre : r = 107 := (Nat.prime_dvd_prime_iff_eq hr prime_107).mp h
      subst hre
      exact powMod_cast_ne_one hq (by decide) (by decide)
    have hre : r = 12048837557 := (Nat.prime_dvd_prime_iff_eq hr prime_12048837557).mp hdvd
    subst hre
    exact powMod_cast_ne_one hq (by decide) (by decide)

theorem prime_1670836401704629 : Nat.Prime 1670836401704629 := by
  have hq : (1 : ℕ) < 1670836401704629 := by norm_num
  apply lucas_primality 1670836401704629 ((2 : ℕ) : ZMod 1670836401704629)
  · exact powMod_cast_one (by decide) (by decide)
  · intro r hr hdvd
    have hfac : 1670836401704629 - 1 = 2 ^ 2 * (3 ^ 4 * (5156902474397)) := by decide
    rw [hfac] at hdvd
    rcases (Nat.Prime.dvd_mul hr).mp hdvd with h | hdvd
    · have hre : r = 2 := prime_eq_of_dvd_pow hr prime_2 h
      subst hre
      exact powMod_cast_ne_one hq (by decide) (by decide)
    rcases (Nat.Prime.dvd_mul hr).mp hdvd with h | hdvd
    · have hre : r = 3 := prime_eq_of_dvd_pow hr prime_3 h
      subst hre
      exact powMod_cast_ne_one hq (by decide) (by decide)
    have hre : r = 5156902474397 := (Nat.prime_dvd_prime_iff_eq hr prime_5156902474397).mp hdvd
    subst hre
    exact powMod_cast_ne_one hq (by decide) (by decide)

theorem prime_65865678001877903 : Nat.Prime 65865678001877903 := by
  have hq : (1 : ℕ) < 65865678001877903 := by norm_num
  apply lucas_primality 65865678001877903 ((5 : ℕ) : ZMod 65865678001877903)
  · exact powMod_cast_one (by decide) (by decide)
  · intro r hr hdvd
    have hfac : 65865678001877903 - 1 = 2 * (83 * (379 * (1637 * (639533339)))) := by decide
    rw [hfac] at hdvd
    rcases (Nat.Prime.dvd_mul hr).mp hdvd with h | hdvd
    · have hre : r = 2 := (Nat.prime_dvd_prime_iff_eq hr prime_2).mp h
      subst hre
      exact powMod_cast_ne_one hq (by decide) (by decide)
    rcases (Nat.Prime.dvd_mul hr).mp hdvd with h | hdvd
    · have hre : r = 83 := (Nat.prime_dvd_prime_iff_eq hr prime_83).mp h
      subst hre
      exact powMod_cast_ne_one hq (by decide) (by decide)
    rcases (Nat.Prime.dvd_mul hr).mp hdvd with h | hdvd
    · have hre : r = 379 := (Nat.prime_dvd_prime_iff_eq hr prime_379).mp h
      subst hre
      exact powMod_cast_ne_one hq (by decide) (by decide)
    rcases (Nat.Prime.dvd_mul hr).mp hdvd with h | hdvd
    · have hre : r = 1637 := (Nat.prime_dvd_prime_iff_eq hr prime_1637).mp h
      subst hre
      exact powMod_cast_ne_one hq (by decide) (by decide)
    have hre : r = 639533339 := (Nat.prime_dvd_prime_iff_eq hr prime_639533339).mp hdvd
    subst hre
    exact powMod_cast_ne_one hq (by decide) (by decide)

theorem prime_13818364434197438864469338081 : Nat.Prime 13818364434197438864469338081 := by
  have hq : (1 : ℕ) < 13818364434197438864469338081 := by norm_num
  apply lucas_primality 13818364434197438864469338081 ((3 : ℕ) : ZMod 13818364434197438864469338081)
  · exact powMod_cast_one (by decide) (by decide)
  · intro r hr hdvd
    have hfac : 13818364434197438864469338081 - 1 = 2 ^ 5 * (5 * (823 * (1593227 * (65865678001877903)))) := by decide
    rw [hfac] at hdvd
    rcases (Nat.Prime.dvd_mul hr).mp hdvd with h | hdvd
    · have hre : r = 2 := prime_eq_of_dvd_pow hr prime_2 h
      subst hre
      exact powMod_cast_ne_one hq (by decide) (by decide)
    rcases (Nat.Prime.dvd_mul hr).mp hdvd with h | hdvd
    · have hre : r = 5 := (Nat.prime_dvd_prime_iff_eq hr prime_5).mp h
      subst hre
      exact powMod_cast_ne_one hq (by decide) (by decide)
    rcases (Nat.Prime.dvd_mul hr).mp hdvd with h | hdvd
    · have hre : r = 823 := (Nat.prime_dvd_prime_iff_eq hr prime_823).mp h
      subst hre
      exact powMod_cast_ne_one hq (by decide) (by decide)
    rcases (Nat.Prime.dvd_mul hr).mp hdvd with h | hdvd
    · have hre : r = 1593227 := (Nat.prime_dvd_prime_iff_eq hr prime_1593227).mp h
      subst hre
      exact powMod_cast_ne_one hq (by decide) (by decide)
    have hre : r = 65865678001877903 := (Nat.prime_dvd_prime_iff_eq hr prime_65865678001877903).mp hdvd
    subst hre
    exact powMod_cast_ne_one hq (by decide) (by decide)

theorem prime_modulus : Nat.Prime 21888242871839275222246405745257275088548364400416034343698204186575808495617 := by
  have hq : (1 : ℕ) < 21888242871839275222246405745257275088548364400416034343698204186575808495617 := by norm_num
  apply lucas_primality 21888242871839275222246405745257275088548364400416034343698204186575808495617 ((5 : ℕ) : ZMod 21888242871839275222246405745257275088548364400416034343698204186575808495617)
  · exact powMod_cast_one (by decide) (by decide)
  · intro r hr hdvd
    have hfac : 21888242871839275222246405745257275088548364400416034343698204186575808495617 - 1 = 2 ^ 28 * (3 ^ 2 * (13 * (29 * (983 * (11003 * (237073 * (405928799 * (1670836401704629 * (13818364434197438864469338081))))))))) := by decide
    rw [hfac] at hdvd
    rcases (Nat.Prime.dvd_mul hr).mp hdvd with h | hdvd
    · have hre : r = 2 := prime_eq_of_dvd_pow hr prime_2 h
      subst hre
      exact powMod_cast_ne_one hq (by decide) (by decide)
    rcases (Nat.Prime.dvd_mul hr).mp hdvd with h | hdvd
    · have hre : r = 3 := prime_eq_of_dvd_pow hr prime_3 h
      subst hre
      exact powMod_cast_ne_one hq (by decide) (by decide)
    rcases (Nat.Prime.dvd_mul hr).mp hdvd with h | hdvd
    · have hre : r = 13 := (Nat.prime_dvd_prime_iff_eq hr prime_13).mp h
      subst hre
      exact powMod_cast_ne_one hq (by decide) (by decide)
    rcases (Nat.Prime.dvd_mul hr).mp hdvd with h | hdvd
    · have hre : r = 29 := (Nat.prime_dvd_prime_iff_eq hr prime_29).mp h
      subst hre
      exact powMod_cast_ne_one hq (by decide) (by decide)
    rcases (Nat.Prime.dvd_mul hr).mp hdvd with h | hdvd
    · have hre : r = 983 := (Nat.prime_dvd_prime_iff_eq hr prime_983).mp h
      subst hre
      exact powMod_cast_ne_one hq (by decide) (by decide)
    rcases (Nat.Prime.dvd_mul hr).mp hdvd with h | hdvd
    · have hre : r = 11003 := (Nat.prime_dvd_prime_iff_eq hr prime_11003).mp h
      subst hre
      exact powMod_cast_ne_one hq (by decide) (by decide)
    rcases (Nat.Prime.dvd_mul hr).mp hdvd with h | hdvd
    · have hre : r = 237073 := (Nat.prime_dvd_prime_iff_eq hr prime_237073).mp h
      subst hre
      exact powMod_cast_ne_one hq (by decide) (by decide)
    rcases (Nat.Prime.dvd_mul hr).mp hdvd with h | hdvd
    · have hre : r = 405928799 := (Nat.prime_dvd_prime_iff_eq hr prime_405928799).mp h
      subst hre
      exact powMod_cast_ne_one hq (by decide) (by decide)
    rcases (Nat.Prime.dvd_mul hr).mp hdvd with h | hdvd
    · have hre : r = 1670836401704629 := (Nat.prime_dvd_prime_iff_eq hr prime_1670836401704629).mp h
      subst hre
      exact powMod_cast_ne_one hq (by decide) (by decide)
    have hre : r = 13818364434197438864469338081 := (Nat.prime_dvd_prime_iff_eq hr prime_13818364434197438864469338081).mp hdvd
    subst hre
    exact powMod_cast_ne_one hq (by decide) (by decide)

theorem p_prime : Nat.Prime p := prime_modulus

@[instance] theorem fact_p_prime : Fact (Nat.Prime p) := ⟨p_prime⟩

/-! ### Arithmetic analysis of the bit decomposition -/

theorem two_pow_253_lt_p : 2 ^ 253 < p := by decide

theorem bitsLC_append (l : List F) (t : F) :
    bitsLC (l ++ [t]) = bitsLC l + t * (2 : F) ^ l.length := by
  induction l with
  | nil => simp [bitsLC]
  | cons b bs ih =>
    show b + 2 * bitsLC (bs ++ [t]) = b + 2 * bitsLC bs + t * (2 : F) ^ (bs.length + 1)
    rw [ih, pow_succ]
    ring

theorem bitsLC_witness (n m : ℕ) :
    bitsLC ((List.range n).map fun i => (((m >>> i) &&& 1 : ℕ) : F)) = ((m % 2 ^ n : ℕ) : F) := by
  induction n with
  | zero => simp [bitsLC, Nat.mod_one]
  | succ k ih =>
    rw [List.range_succ, List.map_append]
    simp only [List.map_cons, List.map_nil]
    rw [bitsLC_append, ih]
    simp only [bitsLC, List.length_map, List.length_range]
    have hmod : m % 2 ^ (k + 1) = m % 2 ^ k + 2 ^ k * ((m >>> k) &&& 1) := by
      rw [Nat.shiftRight_eq_div_pow, Nat.and_one_is_mod, pow_succ, Nat.mod_mul]
    rw [hmod]
    push_cast
    ring

theorem boolean_bit (j : ℕ) (h : j ≤ 1) : ((j : F)) * ((j : F) - 1) = 0 := by
  interval_cases j <;> simp

theorem num2BitsWitness_length (n : ℕ) (x : F) : (num2BitsWitness n x).length = n := by
  simp [num2BitsWitness]

theorem num2BitsWitness_boolean (n : ℕ) (x : F) :
    (num2BitsWitness n x).all (fun b => b * (b - 1) == 0) = true := by
  simp only [num2BitsWitness, List.all_eq_true, List.mem_map, List.mem_range]
  rintro b ⟨i, -, rfl⟩
  have hle : (x.val >>> i) &&& 1 ≤ 1 := by
    rw [Nat.and_one_is_mod]
    omega
  simpa using boolean_bit _ hle

theorem num2Bits_check_witness_eq (n : ℕ) (x : F) :
    num2Bits_check n x (num2BitsWitness n x) = (((x.val % 2 ^ n : ℕ) : F) == x) := by
  have hlc : bitsLC (num2BitsWitness n x) = ((x.val % 2 ^ n : ℕ) : F) := bitsLC_witness n x.val
  simp [num2Bits_check, num2BitsWitness_length, num2BitsWitness_boolean, hlc]

theorem natCast_val_mod_eq_iff (n : ℕ) (x : F) :
    (((x.val % 2 ^ n : ℕ) : F) = x) ↔ x.val < 2 ^ n := by
  constructor
  · intro h
    have hlt : x.val % 2 ^ n < p := lt_of_le_of_lt (Nat.mod_le _ _) x.val_lt
    have hval := congrArg ZMod.val h
    rw [ZMod.val_cast_of_lt hlt] at hval
    rw [← hval]
    exact Nat.mod_lt _ (Nat.pos_pow_of_pos n (by omega))
  · intro h
    rw [Nat.mod_eq_of_lt h]
    exact ZMod.natCast_rightInverse x

theorem num2Bits_witness_ok (n : ℕ) (x : F) (h : x.val < 2 ^ n) :
    num2Bits_check n x (num2BitsWitness n x) = true := by
  rw [num2Bits_check_witness_eq, beq_iff_eq]
  exact (natCast_val_mod_eq_iff n x).mpr h

theorem boolean_entry {b : F} (h : b * (b - 1) = 0) : b = 0 ∨ b = 1 := by
  rcases mul_eq_zero.mp h with h0 | h1
  · exact Or.inl h0
  · exact Or.inr (by simpa [sub_eq_zero] using h1)

theorem bitsLC_nat (bs : List F) (hb : ∀ b ∈ bs, b * (b - 1) = 0) :
    ∃ S : ℕ, S < 2 ^ bs.length ∧ bitsLC bs = (S : F) := by
  induction bs with
  | nil => exact ⟨0, by simp, by simp [bitsLC]⟩
  | cons b rest ih =>
    obtain ⟨S, hS, hlc⟩ := ih fun x hx => hb x (List.mem_cons_of_mem _ hx)
    rcases boolean_entry (hb b (List.mem_cons_self _ _)) with rfl | rfl
    · refine ⟨2 * S, ?_, ?_⟩
      · rw [List.length_cons, pow_succ]
        omega
      · rw [bitsLC, hlc]
        push_cast
        ring
    · refine ⟨2 * S + 1, ?_, ?_⟩
      · rw [List.length_cons, pow_succ]
        omega
      · rw [bitsLC, hlc]
        push_cast
        ring

theorem exists_append_singleton {α : Type} (bs : List α) (n : ℕ) (h : bs.length = n + 1) :
    ∃ l t, bs = l ++ [t] ∧ l.length = n := by
  match hr : bs.reverse with
  | [] =>
    rw [List.reverse_eq_nil_iff] at hr
    rw [hr] at h
    simp at h
  | t :: l2 =>
    refine ⟨l2.reverse, t, ?_, ?_⟩
    · rw [← bs.reverse_reverse, hr]
      simp
    · rw [List.length_reverse]
      have := congrArg List.length hr
      simp at this
      omega

theorem getD_append_singleton (l : List F) (t : F) : (l ++ [t]).getD l.length 0 = t := by
  induction l with
  | nil => rfl
  | cons b bs ih =>
    simp only [List.cons_append, List.length_cons, List.getD_cons_succ]
    exact ih

/-- In any satisfying assignment of `Num2Bits(n+1)`, the input value is below
`2^(n+1)` and the top bit equals the top bit of its integer representative. -/
theorem num2Bits_check_top (n : ℕ) (x : F) (bs : List F) (hp2 : 2 ^ (n + 1) ≤ p)
    (h : num2Bits_check (n + 1) x bs = true) :
    x.val < 2 ^ (n + 1) ∧ bs.getD n 0 = (if 2 ^ n ≤ x.val then 1 else 0) := by
  simp only [num2Bits_check, Bool.and_eq_true, beq_iff_eq, List.all_eq_true] at h
  obtain ⟨⟨hlen, hbool⟩, hsum⟩ := h
  obtain ⟨l, t, rfl, hl⟩ := exists_append_singleton bs n hlen
  obtain ⟨S, hS, hlc⟩ := bitsLC_nat l fun b hb => by
    simpa using hbool b (List.mem_append_left _ hb)
  rw [hl] at hS
  rw [bitsLC_append, hlc, hl] at hsum
  have ht : t = 0 ∨ t = 1 := boolean_entry (by simpa using hbool t (List.mem_append_right _ (List.mem_singleton_self t)))
  have hgetD : (l ++ [t]).getD n 0 = t := by
    rw [← hl]
    exact getD_append_singleton l t
  have hpow : (((2 : ℕ) ^ n : ℕ) : F) = (2 : F) ^ n := by push_cast; rfl
  rcases ht with rfl | rfl
  · have hx : x = ((S : ℕ) : F) := by rw [← hsum]; ring
    have hval : x.val = S := by rw [hx]; exact ZMod.val_cast_of_lt (by omega)
    rw [hval, hgetD]
    constructor
    · omega
    · rw [if_neg (by omega)]
  · have hx : x = ((S + 2 ^ n : ℕ) : F) := by rw [← hsum]; push_cast; ring
    have hval : x.val = S + 2 ^ n := by
      rw [hx]
      exact ZMod.val_cast_of_lt (by
        have : S + 2 ^ n < 2 ^ (n + 1) := by rw [pow_succ]; omega
        omega)
    rw [hval, hgetD]
    constructor
    · rw [pow_succ]; omega
    · rw [if_pos (by omega)]

/-- The constraint system of `Num2Bits(n)` is satisfiable exactly when the
integer representative of the input fits in `n` bits. -/
theorem num2Bits_satisfiable_iff (n : ℕ) (x : F) :
    (∃ bs, num2Bits_check n x bs = true) ↔ x.val < 2 ^ n := by
  constructor
  · rintro ⟨bs, h⟩
    by_cases hn : 2 ^ n ≤ p
    · simp only [num2Bits_check, Bool.and_eq_true, beq_iff_eq, List.all_eq_true] at h
      obtain ⟨⟨hlen, hbool⟩, hsum⟩ := h
      obtain ⟨S, hS, hlc⟩ := bitsLC_nat bs fun b hb => by simpa using hbool b hb
      rw [hlen] at hS
      rw [hlc] at hsum
      rw [← hsum, ZMod.val_cast_of_lt (by omega)]
      exact hS
    · have := x.val_lt
      omega
  · intro h
    exact ⟨num2BitsWitness n x, num2Bits_witness_ok n x h⟩

/-! ### Analysis of the comparators -/

theorem val_add_shift_sub (c : ℕ) (a b : F) (hb : b.val ≤ a.val + c)
    (hlt : a.val + c - b.val < p) :
    (a + ((c : ℕ) : F) - b).val = a.val + c - b.val := by
  have h1 : ((a.val + c - b.val : ℕ) : F) = a + ((c : ℕ) : F) - b := by
    rw [Nat.cast_sub hb, Nat.cast_add, ZMod.natCast_rightInverse a, ZMod.natCast_rightInverse b]
  rw [← h1, ZMod.val_cast_of_lt hlt]

theorem lessThan_val (n : ℕ) (hn : n ≤ 252) (a b : F) (ha : a.val < 2 ^ n) (hb : b.val < 2 ^ n) :
    (a + ((2 ^ n : ℕ) : F) - b).val = a.val + 2 ^ n - b.val := by
  apply val_add_shift_sub
  · omega
  · have h1 : a.val + 2 ^ n - b.val < 2 ^ (n + 1) := by rw [pow_succ]; omega
    have h2 : (2 : ℕ) ^ (n + 1) ≤ 2 ^ 253 := Nat.pow_le_pow_right (by omega) (by omega)
    have := two_pow_253_lt_p
    omega

/-- The witness computed for `LessThan(n)` satisfies its constraints whenever
both inputs are `n`-bit bounded. -/
theorem lessThan_witness_check (n : ℕ) (hn : n ≤ 252) (a b : F)
    (ha : a.val < 2 ^ n) (hb : b.val < 2 ^ n) :
    lessThan_check n a b (lessThan_witnessBits n a b) (lessThan_out n a b) = true := by
  have hval := lessThan_val n hn a b ha hb
  have hrange : (a + ((2 ^ n : ℕ) : F) - b).val < 2 ^ (n + 1) := by
    rw [hval, pow_succ]
    omega
  simp only [lessThan_check, lessThan_out, Bool.and_eq_true, beq_iff_eq]
  exact ⟨num2Bits_witness_ok _ _ hrange, trivial⟩

/-- In any satisfying assignment of `LessThan(n)` with `n`-bit bounded inputs,
the output signal is forced to the comparison result. -/
theorem lessThan_check_out (n : ℕ) (hn : n ≤ 252) (a b : F)
    (ha : a.val < 2 ^ n) (hb : b.val < 2 ^ n) (bs : List F) (out : F)
    (h : lessThan_check n a b bs out = true) :
    out = if a.val < b.val then 1 else 0 := by
  simp only [lessThan_check, Bool.and_eq_true, beq_iff_eq] at h
  obtain ⟨hn2b, hout⟩ := h
  have hp2 : 2 ^ (n + 1) ≤ p := by
    have h2 : (2 : ℕ) ^ (n + 1) ≤ 2 ^ 253 := Nat.pow_le_pow_right (by omega) (by omega)
    have := two_pow_253_lt_p
    omega
  obtain ⟨-, htop⟩ := num2Bits_check_top n _ bs hp2 hn2b
  rw [lessThan_val n hn a b ha hb] at htop
  rw [hout, htop]
  by_cases hcmp : a.val < b.val
  · rw [if_neg (by omega), if_pos hcmp]
    ring
  · rw [if_pos (by omega), if_neg hcmp]
    ring

/-- The output computed by the witness calculator for `LessThan(n)` is the
comparison result. -/
theorem lessThan_out_eq (n : ℕ) (hn : n ≤ 252) (a b : F)
    (ha : a.val < 2 ^ n) (hb : b.val < 2 ^ n) :
    lessThan_out n a b = if a.val < b.val then 1 else 0 :=
  lessThan_check_out n hn a b ha hb _ _ (lessThan_witness_check n hn a b ha hb)

/-- The output computed for `GreaterEqThan(n)` is `1 - LessThan(a,b)`, i.e.
the greater-or-equal comparison result. -/
theorem greaterEqThan_out_eq (n : ℕ) (hn : n ≤ 252) (a b : F)
    (ha : a.val < 2 ^ n) (hb : b.val < 2 ^ n) :
    greaterEqThan_out n a b = if b.val ≤ a.val then 1 else 0 := by
  rw [greaterEqThan_out, lessThan_out_eq n hn a b ha hb]
  by_cases hcmp : a.val < b.val
  · rw [if_pos hcmp, if_neg (by omega)]
    ring
  · rw [if_neg hcmp, if_pos (by omega)]
    ring

/-! ### Analysis of ComputeThreshold -/

/-- With both inputs in the 252-bit comparator range, the `ComputeThreshold`
constraint system is satisfiable exactly when the private value is below the
threshold. -/
theorem ComputeThreshold_sat_iff (v T : F) (hv : v.val < 2 ^ 252) (hT : T.val < 2 ^ 252) :
    ComputeThreshold_Satisfiable v T ↔ v.val < T.val := by
  constructor
  · rintro ⟨w, h⟩
    simp only [ComputeThreshold_check, Bool.and_eq_true, beq_iff_eq] at h
    obtain ⟨⟨⟨-, hlt⟩, hvalid⟩, hone⟩ := h
    have hout := lessThan_check_out 252 (by omega) v T hv hT w.rangeBits w.rangeOut hlt
    by_contra hcmp
    rw [if_neg hcmp] at hout
    rw [hvalid, hout] at hone
    exact zero_ne_one hone
  · intro h
    refine ⟨ComputeThreshold_witness v T, ?_⟩
    simp only [ComputeThreshold_check, ComputeThreshold_witness, Bool.and_eq_true, beq_iff_eq]
    refine ⟨⟨⟨trivial, lessThan_witness_check 252 (by omega) v T hv hT⟩, trivial⟩, ?_⟩
    rw [lessThan_out_eq 252 (by omega) v T hv hT, if_pos h]

/-- With bounded inputs and a true predicate, witness generation for
`ComputeThreshold` succeeds and the public signals are `[1, threshold]`. -/
theorem ComputeThreshold_prove_ok (v T : F) (hv : v.val < 2 ^ 252) (hT : T.val < 2 ^ 252)
    (h : v.val < T.val) :
    ComputeThreshold_prove v T = .ok ⟨.compute_threshold, [1, T]⟩ := by
  obtain ⟨w, hw⟩ := (ComputeThreshold_sat_iff v T hv hT).mpr h
  have hvalid : (ComputeThreshold_witness v T).valid = 1 := by
    show lessThan_out 252 v T = 1
    rw [lessThan_out_eq 252 (by omega) v T hv hT, if_pos h]
  have hcheck : ComputeThreshold_check v T (ComputeThreshold_witness v T) = true := by
    simp only [ComputeThreshold_check, ComputeThreshold_witness, Bool.and_eq_true, beq_iff_eq]
    refine ⟨⟨⟨trivial, lessThan_witness_check 252 (by omega) v T hv hT⟩, trivial⟩, hvalid⟩
  rw [ComputeThreshold_prove, if_pos hcheck, hvalid]

/-- With bounded inputs and a false predicate, witness generation for
`ComputeThreshold` fails. -/
theorem ComputeThreshold_prove_error (v T : F) (hv : v.val < 2 ^ 252) (hT : T.val < 2 ^ 252)
    (h : T.val ≤ v.val) :
    ComputeThreshold_prove v T = .error .ConstraintUnsatisfiable := by
  have hunsat : ¬ComputeThreshold_Satisfiable v T := by
    rw [ComputeThreshold_sat_iff v T hv hT]
    omega
  have hcheck : ¬(ComputeThreshold_check v T (ComputeThreshold_witness v T) = true) :=
    fun hc => hunsat ⟨_, hc⟩
  rw [ComputeThreshold_prove, if_neg hcheck]

/-! ### Analysis of the flag-aggregation circuits -/

theorem sumsFrom_sumsList (fs : List F) : ∀ acc, sumsFrom acc fs (sumsList acc fs) = true := by
  induction fs with
  | nil => intro acc; rfl
  | cons f fs' ih =>
    intro acc
    simp only [sumsList, sumsFrom, Bool.and_eq_true, beq_iff_eq]
    exact ⟨by trivial, ih (acc + f)⟩

theorem sumsList_length (fs : List F) : ∀ acc, (sumsList acc fs).length = fs.length := by
  induction fs with
  | nil => intro acc; rfl
  | cons f fs' ih =>
    intro acc
    simp only [sumsList, List.length_cons, ih (acc + f)]

theorem sumsFrom_getD (fs : List F) : ∀ (acc : F) (ss : List F) (n : ℕ), fs.length = n + 1 →
    sumsFrom acc fs ss = true → ss.getD n 0 = acc + fs.sum := by
  induction fs with
  | nil =>
    intro acc ss n hn
    simp at hn
  | cons f fs' ih =>
    intro acc ss n hn h
    cases ss with
    | nil => simp [sumsFrom] at h
    | cons s ss' =>
      simp only [sumsFrom, Bool.and_eq_true, beq_iff_eq] at h
      obtain ⟨rfl, hrest⟩ := h
      cases fs' with
      | nil =>
        have hn0 : n = 0 := by
          simp at hn
          omega
        subst hn0
        cases ss' with
        | nil => simp
        | cons u us => simp [sumsFrom] at hrest
      | cons g gs =>
        have hge : 1 ≤ n := by
          simp at hn
          omega
        have hlen2 : (g :: gs).length = (n - 1) + 1 := by
          simp at hn ⊢
          omega
        have hrec := ih (acc + f) ss' (n - 1) hlen2 hrest
        have hn1 : n = (n - 1) + 1 := by omega
        rw [hn1, List.getD_cons_succ, hrec]
        simp [add_assoc]

theorem countOnes_le (flags : List F) : countOnes flags ≤ flags.length :=
  List.length_filter_le _ flags

theorem sum_boolean (flags : List F) (hb : ∀ f ∈ flags, f = 0 ∨ f = 1) :
    flags.sum = ((countOnes flags : ℕ) : F) := by
  induction flags with
  | nil => simp [countOnes]
  | cons f fs ih =>
    have hrest := ih fun x hx => hb x (List.mem_cons_of_mem _ hx)
    rcases hb f (List.mem_cons_self _ _) with rfl | rfl
    · simp only [List.sum_cons, zero_add, hrest, countOnes, List.filter_cons]
      rw [if_neg (by simp [zero_ne_one])]
    · simp only [List.sum_cons, hrest, countOnes, List.filter_cons]
      rw [if_pos (by simp), List.length_cons]
      push_cast
      ring

theorem val_255_lt_p : (255 : ℕ) < p := by decide

/-- With boolean flags whose count of ones meets the public minimum, the
computed witness satisfies every constraint of the aggregation template and
its validity output is the constant `1`. -/
theorem flagAgg_witness_check (N : ℕ) (flags : List F) (k : F) (hN1 : 1 ≤ N) (hN : N ≤ 255)
    (hlen : flags.length = N) (hk : k.val ≤ N)
    (hb : ∀ f ∈ flags, f = 0 ∨ f = 1) (hcnt : k.val ≤ countOnes flags) :
    flagAgg_check N flags k (flagAgg_witness N flags k) = true ∧
      (flagAgg_witness N flags k).valid = 1 := by
  have hN' : flags.length = (N - 1) + 1 := by omega
  have hlast := sumsFrom_getD flags 0 (sumsList 0 flags) (N - 1) hN' (sumsFrom_sumsList flags 0)
  rw [zero_add, sum_boolean flags hb] at hlast
  have hcle : countOnes flags ≤ N := hlen ▸ countOnes_le flags
  have hvala : ((countOnes flags : ℕ) : F).val = countOnes flags := by
    have := val_255_lt_p
    exact ZMod.val_cast_of_lt (by omega)
  have ha : ((sumsList 0 flags).getD (N - 1) 0).val < 2 ^ 8 := by
    rw [hlast, hvala]
    norm_num
    omega
  have hkb : k.val < 2 ^ 8 := by norm_num; omega
  have hout : lessThan_out 8 ((sumsList 0 flags).getD (N - 1) 0) k = 0 := by
    rw [lessThan_out_eq 8 (by omega) _ k ha hkb, if_neg]
    rw [hlast, hvala]
    omega
  have hvalid : (flagAgg_witness N flags k).valid = 1 := by
    show 1 - lessThan_out 8 ((sumsList 0 flags).getD (N - 1) 0) k = 1
    rw [hout]
    ring
  refine ⟨?_, hvalid⟩
  simp only [flagAgg_check, greaterEqThan_check, flagAgg_witness, Bool.and_eq_true, beq_iff_eq,
    List.all_eq_true]
  refine ⟨⟨⟨⟨⟨⟨?_, ?_⟩, ?_⟩, ?_⟩, ?_, ?_⟩, ?_⟩, ?_⟩
  · exact hlen
  · intro f hf
    rcases hb f hf with rfl | rfl <;> simp
  · rw [sumsList_length]
    exact hlen
  · exact sumsFrom_sumsList flags 0
  · exact lessThan_witness_check 8 (by omega) _ k ha hkb
  · trivial
  · trivial
  · rw [hout]
    ring

/-- With `1 ≤ N ≤ 255` flags and a public minimum `k ≤ N`, the aggregation
constraint system is satisfiable exactly when every flag is boolean and at
least `k` flags are set. -/
theorem flagAgg_sat_iff (N : ℕ) (flags : List F) (k : F) (hN1 : 1 ≤ N) (hN : N ≤ 255)
    (hlen : flags.length = N) (hk : k.val ≤ N) :
    (∃ w, flagAgg_check N flags k w = true) ↔
      ((∀ f ∈ flags, f = 0 ∨ f = 1) ∧ k.val ≤ countOnes flags) := by
  constructor
  · rintro ⟨w, h⟩
    simp only [flagAgg_check, greaterEqThan_check, Bool.and_eq_true, beq_iff_eq,
      List.all_eq_true] at h
    obtain ⟨⟨⟨⟨⟨⟨hflen, hbool⟩, hslen⟩, hsums⟩, hltc, hgeo⟩, hvg⟩, hv1⟩ := h
    have hb : ∀ f ∈ flags, f = 0 ∨ f = 1 := fun f hf => boolean_entry (hbool f hf)
    have hN' : flags.length = (N - 1) + 1 := by omega
    have hlast := sumsFrom_getD flags 0 w.sums (N - 1) hN' hsums
    rw [zero_add, sum_boolean flags hb] at hlast
    have hcle : countOnes flags ≤ N := hlen ▸ countOnes_le flags
    have hvala : ((countOnes flags : ℕ) : F).val = countOnes flags := by
      have := val_255_lt_p
      exact ZMod.val_cast_of_lt (by omega)
    have ha : (w.sums.getD (N - 1) 0).val < 2 ^ 8 := by
      rw [hlast, hvala]
      norm_num
      omega
    have hkb : k.val < 2 ^ 8 := by norm_num; omega
    have hout := lessThan_check_out 8 (by omega) _ k ha hkb w.geBits w.geLtOut hltc
    have hlt0 : w.geLtOut = 0 := by
      have h1 : (1 : F) - w.geLtOut = 1 := by rw [← hgeo, ← hvg, hv1]
      simpa [sub_eq_self] using h1
    rw [hout] at hlt0
    by_cases hc : (w.sums.getD (N - 1) 0).val < k.val
    · rw [if_pos hc] at hlt0
      exact absurd hlt0 one_ne_zero
    · refine ⟨hb, ?_⟩
      rw [hlast, hvala] at hc
      omega
  · rintro ⟨hb, hcnt⟩
    exact ⟨flagAgg_witness N flags k,
      (flagAgg_witness_check N flags k hN1 hN hlen hk hb hcnt).1⟩

/-- With valid parameters and a true predicate, witness generation for an
aggregation circuit succeeds with public signals `[1, minRequired]`. -/
theorem flagAgg_prove_ok (N : ℕ) (cid : CircuitId) (flags : List F) (k : F)
    (hN1 : 1 ≤ N) (hN : N ≤ 255) (hlen : flags.length = N) (hk : k.val ≤ N)
    (hb : ∀ f ∈ flags, f = 0 ∨ f = 1) (hcnt : k.val ≤ countOnes flags) :
    flagAgg_prove N cid flags k = .ok ⟨cid, [1, k]⟩ := by
  obtain ⟨hcheck, hvalid⟩ := flagAgg_witness_check N flags k hN1 hN hlen hk hb hcnt
  rw [flagAgg_prove, if_pos hcheck, hvalid]

/-- With valid parameters and a false predicate, witness generation for an
aggregation circuit fails. -/
theorem flagAgg_prove_error (N : ℕ) (cid : CircuitId) (flags : List F) (k : F)
    (hN1 : 1 ≤ N) (hN : N ≤ 255) (hlen : flags.length = N) (hk : k.val ≤ N)
    (hpred : ¬((∀ f ∈ flags, f = 0 ∨ f = 1) ∧ k.val ≤ countOnes flags)) :
    flagAgg_prove N cid flags k = .error .ConstraintUnsatisfiable := by
  have hunsat : ¬∃ w, flagAgg_check N flags k w = true :=
    fun hs => hpred ((flagAgg_sat_iff N flags k hN1 hN hlen hk).mp hs)
  rw [flagAgg_prove, if_neg (fun hc => hunsat ⟨_, hc⟩)]

/-! ### Auxiliary facts about generation results -/

theorem ComputeThreshold_prove_signals (v T : F) (pf : ProofModel)
    (h : ComputeThreshold_prove v T = .ok pf) : pf.publicSignals = [1, T] := by
  rw [ComputeThreshold_prove] at h
  by_cases hc : ComputeThreshold_check v T (ComputeThreshold_witness v T) = true
  · rw [if_pos hc] at h
    have hv : (ComputeThreshold_witness v T).valid = 1 := by
      simp only [ComputeThreshold_check, Bool.and_eq_true, beq_iff_eq] at hc
      exact hc.2
    cases h
    simp [hv]
  · rw [if_neg hc] at h
    exact absurd h (by simp)

theorem flagAgg_prove_signals (N : ℕ) (cid : CircuitId) (flags : List F) (k : F)
    (pf : ProofModel) (h : flagAgg_prove N cid flags k = .ok pf) :
    pf.publicSignals = [1, k] := by
  rw [flagAgg_prove] at h
  by_cases hc : flagAgg_check N flags k (flagAgg_witness N flags k) = true
  · rw [if_pos hc] at h
    have hv : (flagAgg_witness N flags k).valid = 1 := by
      simp only [flagAgg_check, Bool.and_eq_true, beq_iff_eq] at hc
      exact hc.2
    cases h
    simp [hv]
  · rw [if_neg hc] at h
    exact absurd h (by simp)

/-! ### Claim theorems -/

/-- C2: for every pair of values `a, b` each representing an integer below
`2^n` (`n ≤ 252`), `LessThan(n)` decomposes `s = a + 2^n - b` into `n+1` bits
and outputs `out = 1 - bit_n`, so `out = 1` iff `a < b`; `a = b` yields
`out = 0` (strict); and `GreaterEqThan(n)` outputs `1 - LessThan(a,b)`, i.e.
`1` iff `a ≥ b`.  Moreover any satisfying assignment of `LessThan(n)` forces
the output to the comparison result. -/
theorem spec_C2_strict_comparator (n : ℕ) (a b : F) (hn : n ≤ 252)
    (ha : a.val < 2 ^ n) (hb : b.val < 2 ^ n) :
    (lessThan_check n a b (lessThan_witnessBits n a b) (lessThan_out n a b) = true) ∧
    (lessThan_out n a b = 1 ↔ a.val < b.val) ∧
    (a = b → lessThan_out n a b = 0) ∧
    (greaterEqThan_out n a b = 1 - lessThan_out n a b) ∧
    (greaterEqThan_out n a b = 1 ↔ b.val ≤ a.val) ∧
    (∀ bs out, lessThan_check n a b bs out = true → out = if a.val < b.val then 1 else 0) := by
  have hlt := lessThan_out_eq n hn a b ha hb
  have hge := greaterEqThan_out_eq n hn a b ha hb
  refine ⟨lessThan_witness_check n hn a b ha hb, ?_, ?_, rfl, ?_, fun bs out h => lessThan_check_out n hn a b ha hb bs out h⟩
  · rw [hlt]
    by_cases hc : a.val < b.val
    · simp [hc]
    · simp [hc, zero_ne_one]
  · rintro rfl
    rw [hlt, if_neg (by omega)]
  · rw [hge]
    by_cases hc : b.val ≤ a.val
    · simp [hc]
    · simp [hc, zero_ne_one]

/-- Witness for C2 at the concrete input `n = 8`, `a = 3`, `b = 5`. -/
theorem spec_C2_witness : lessThan_out 8 (3 : F) (5 : F) = 1 :=
  ((spec_C2_strict_comparator 8 3 5 (by norm_num) (by decide) (by decide)).2.1).mpr (by decide)

/-- C3: the `Num2Bits(n)` constraint system (each output bit satisfies
`b(b-1) = 0` and the weighted bit sum equals the input) admits a satisfying
assignment iff the integer value of the input is below `2^n`; a value needing
more than `n` bits admits no satisfying bit assignment. -/
theorem spec_C3_num2Bits_satisfiability (n : ℕ) (x : F) :
    (∃ bs, num2Bits_check n x bs = true) ↔ x.val < 2 ^ n :=
  num2Bits_satisfiable_iff n x

/-- Bool-level sufficient condition for flag booleanity, convenient for
evaluating concrete flag lists. -/
theorem boolean_list_of_all (flags : List F)
    (h : (flags.all fun f => (f == 0) || (f == 1)) = true) :
    ∀ f ∈ flags, f = 0 ∨ f = 1 := by
  intro f hf
  have hd := List.all_eq_true.mp h f hf
  simpa using hd

/-- C4: for the aggregation circuits (`EvaluationAttestation` with `N = 5`,
`PolicyCompliance` with `N = 8`) and any public minimum `k ≤ N`, the
constraint system — boolean constraints on every flag, prefix sums, a
bit-width-8 greater-or-equal comparator fed with the final sum and `k`, and
the hard constraint forcing its result to `1` — is satisfiable for given
private flags iff every flag is `0` or `1` and the number of flags equal to
`1` is at least `k`. -/
theorem spec_C4_flag_aggregation :
    (∀ (flags : List F) (k : F), flags.length = 5 → k.val ≤ 5 →
      (EvaluationAttestation_Satisfiable flags k ↔
        ((∀ f ∈ flags, f = 0 ∨ f = 1) ∧ k.val ≤ countOnes flags))) ∧
    (∀ (flags : List F) (k : F), flags.length = 8 → k.val ≤ 8 →
      (PolicyCompliance_Satisfiable flags k ↔
        ((∀ f ∈ flags, f = 0 ∨ f = 1) ∧ k.val ≤ countOnes flags))) :=
  ⟨fun flags k hlen hk => flagAgg_sat_iff 5 flags k (by norm_num) (by norm_num) hlen hk,
   fun flags k hlen hk => flagAgg_sat_iff 8 flags k (by norm_num) (by norm_num) hlen hk⟩

/-- Witness for C4 at the concrete input `flags = [1,1,0,1,1]`, `k = 3`. -/
theorem spec_C4_witness : EvaluationAttestation_Satisfiable [1, 1, 0, 1, 1] 3 :=
  (spec_C4_flag_aggregation.1 [1, 1, 0, 1, 1] 3 (by decide) (by decide)).mpr
    ⟨boolean_list_of_all _ (by decide), by decide⟩

/-- C1 (counterexample): at the private field input `p - 1` (the element
representing `-1`), whose canonical integer representative is at least the
threshold `10^25`, witness generation for the compute circuit nevertheless
succeeds — so it is not the case that generation fails for every private
input whose representative violates the predicate. -/
theorem spec_C1_counterexample :
    ((10 ^ 25 : ℕ) : F).val ≤ ((p - 1 : ℕ) : F).val ∧
    ComputeThreshold_prove ((p - 1 : ℕ) : F) ((10 ^ 25 : ℕ) : F) =
      .ok ⟨.compute_threshold, [1, ((10 ^ 25 : ℕ) : F)]⟩ :=
  ⟨by decide, by decide⟩

/-- C1 (amended): restricted to inputs in the comparator range — both
compute-circuit inputs below `2^252`, and an aggregation minimum `k ≤ N` with
the declared flag count — whenever the predicate is false (compute value at
least the threshold; flag list with a non-boolean entry or fewer than `k`
ones), generation fails with `ConstraintUnsatisfiable` and the constraint
system has no satisfying witness; moreover generation never returns a proof
whose validity signal differs from the forced constant `1`. -/
theorem spec_C1_soundness_amended :
    (∀ v T : F, v.val < 2 ^ 252 → T.val < 2 ^ 252 → T.val ≤ v.val →
      ComputeThreshold_prove v T = .error .ConstraintUnsatisfiable ∧
        ¬ComputeThreshold_Satisfiable v T) ∧
    (∀ (flags : List F) (k : F), flags.length = 5 → k.val ≤ 5 →
      ¬((∀ f ∈ flags, f = 0 ∨ f = 1) ∧ k.val ≤ countOnes flags) →
      EvaluationAttestation_prove flags k = .error .ConstraintUnsatisfiable ∧
        ¬EvaluationAttestation_Satisfiable flags k) ∧
    (∀ (flags : List F) (k : F), flags.length = 8 → k.val ≤ 8 →
      ¬((∀ f ∈ flags, f = 0 ∨ f = 1) ∧ k.val ≤ countOnes flags) →
      PolicyCompliance_prove flags k = .error .ConstraintUnsatisfiable ∧
        ¬PolicyCompliance_Satisfiable flags k) ∧
    (∀ (v T : F) (pf : ProofModel), ComputeThreshold_prove v T = .ok pf →
      pf.publicSignals = [1, T]) ∧
    (∀ (N : ℕ) (cid : CircuitId) (flags : List F) (k : F) (pf : ProofModel),
      flagAgg_prove N cid flags k = .ok pf → pf.publicSignals = [1, k]) := by
  refine ⟨?_, ?_, ?_, ComputeThreshold_prove_signals, flagAgg_prove_signals⟩
  · intro v T hv hT h
    refine ⟨ComputeThreshold_prove_error v T hv hT h, ?_⟩
    rw [ComputeThreshold_sat_iff v T hv hT]
    omega
  · intro flags k hlen hk hpred
    exact ⟨flagAgg_prove_error 5 .evaluation_attestation flags k (by norm_num) (by norm_num)
        hlen hk hpred,
      fun hs => hpred ((flagAgg_sat_iff 5 flags k (by norm_num) (by norm_num) hlen hk).mp hs)⟩
  · intro flags k hlen hk hpred
    exact ⟨flagAgg_prove_error 8 .policy_compliance flags k (by norm_num) (by norm_num)
        hlen hk hpred,
      fun hs => hpred ((flagAgg_sat_iff 8 flags k (by norm_num) (by norm_num) hlen hk).mp hs)⟩

/-- Witness for the amended C1 at the concrete spec scenario 2 input
`v = 2·10^25`, `T = 10^25`. -/
theorem spec_C1_witness :
    ComputeThreshold_prove ((2 * 10 ^ 25 : ℕ) : F) ((10 ^ 25 : ℕ) : F) =
      .error .ConstraintUnsatisfiable :=
  (spec_C1_soundness_amended.1 _ _ (by decide) (by decide) (by decide)).1

/-- C5: for every private input where the predicate is true (compute value
below the threshold with both values in the comparator range; boolean flags
whose count of ones reaches the public minimum), proof generation succeeds
with a `(proof, publicSignals)` pair and verification of that result under
the matching verification key returns true. -/
theorem spec_C5_completeness :
    (∀ v T : F, v.val < 2 ^ 252 → T.val < 2 ^ 252 → v.val < T.val →
      ComputeThreshold_prove v T = .ok ⟨.compute_threshold, [1, T]⟩ ∧
        groth16_verify .compute_threshold [1, T] ⟨.compute_threshold, [1, T]⟩ = true) ∧
    (∀ (flags : List F) (k : F), flags.length = 5 → k.val ≤ 5 →
      (∀ f ∈ flags, f = 0 ∨ f = 1) → k.val ≤ countOnes flags →
      EvaluationAttestation_prove flags k = .ok ⟨.evaluation_attestation, [1, k]⟩ ∧
        groth16_verify .evaluation_attestation [1, k] ⟨.evaluation_attestation, [1, k]⟩ = true) ∧
    (∀ (flags : List F) (k : F), flags.length = 8 → k.val ≤ 8 →
      (∀ f ∈ flags, f = 0 ∨ f = 1) → k.val ≤ countOnes flags →
      PolicyCompliance_prove flags k = .ok ⟨.policy_compliance, [1, k]⟩ ∧
        groth16_verify .policy_compliance [1, k] ⟨.policy_compliance, [1, k]⟩ = true) := by
  refine ⟨fun v T hv hT h => ⟨ComputeThreshold_prove_ok v T hv hT h, by simp [groth16_verify]⟩,
    fun flags k hlen hk hb hcnt => ⟨?_, by simp [groth16_verify]⟩,
    fun flags k hlen hk hb hcnt => ⟨?_, by simp [groth16_verify]⟩⟩
  · exact flagAgg_prove_ok 5 .evaluation_attestation flags k (by norm_num) (by norm_num)
      hlen hk hb hcnt
  · exact flagAgg_prove_ok 8 .policy_compliance flags k (by norm_num) (by norm_num)
      hlen hk hb hcnt

/-- Witness for C5 at the concrete spec scenario 3 input
`flags = [1,1,1,1,1]`, `k = 5`. -/
theorem spec_C5_witness :
    EvaluationAttestation_prove [1, 1, 1, 1, 1] 5 = .ok ⟨.evaluation_attestation, [1, 5]⟩ :=
  (spec_C5_completeness.2.1 [1, 1, 1, 1, 1] 5 (by decide) (by decide)
    (boolean_list_of_all _ (by decide)) (by decide)).1

/-- C6: verification of a composite artifact reports true overall iff every
member `(proof, publicSignals)` pair independently verifies true under the
verification key of its own circuit (a logical AND over per-member verification,
with no shortcut aggregation); consequently a composite in which any one
member is tampered or invalid reports false overall. -/
theorem spec_C6_composite_atomicity (verifier : CircuitId → List F → ProofModel → Bool)
    (c : CompositeProofArtifact) :
    (allValid (verifyCompositeProof verifier c) = true ↔
      (verifier .compute_threshold c.proofs.compute_threshold.publicSignals
          c.proofs.compute_threshold.proof = true ∧
        verifier .evaluation_attestation c.proofs.evaluation_attestation.publicSignals
          c.proofs.evaluation_attestation.proof = true ∧
        verifier .policy_compliance c.proofs.policy_compliance.publicSignals
          c.proofs.policy_compliance.proof = true)) ∧
    ((verifier .compute_threshold c.proofs.compute_threshold.publicSignals
          c.proofs.compute_threshold.proof = false ∨
        verifier .evaluation_attestation c.proofs.evaluation_attestation.publicSignals
          c.proofs.evaluation_attestation.proof = false ∨
        verifier .policy_compliance c.proofs.policy_compliance.publicSignals
          c.proofs.policy_compliance.proof = false) →
      allValid (verifyCompositeProof verifier c) = false) := by
  constructor
  · simp [allValid, verifyCompositeProof]
  · intro h
    simp only [allValid, verifyCompositeProof, List.all_cons, List.all_nil, Bool.and_eq_false_iff]
    rcases h with h | h | h <;> simp [h]

/-- C7: generating a compute-threshold proof with private value `5·10^24` and
public threshold `10^25` succeeds, the result verifies true under the key
of the compute circuit, and the public signal vector is exactly
`[1, 10^25]` — the constant validity output followed by the public
threshold, and nothing else. -/
theorem spec_C7_scenario1 :
    ComputeThreshold_prove ((5 * 10 ^ 24 : ℕ) : F) ((10 ^ 25 : ℕ) : F) =
      .ok ⟨.compute_threshold, [1, ((10 ^ 25 : ℕ) : F)]⟩ ∧
    groth16_verify .compute_threshold [1, ((10 ^ 25 : ℕ) : F)]
      ⟨.compute_threshold, [1, ((10 ^ 25 : ℕ) : F)]⟩ = true :=
  ⟨by decide, by decide⟩

/-- C8: whenever proof generation for a circuit fails (the proving call
throws because the input cannot satisfy all constraints), no artifact is
produced — neither the proof file nor the public-signals file is written and
the persisted state is returned unchanged, with the error as the only
outcome. -/
theorem spec_C8_failed_generation_atomic (input : CircuitInput) (fs : FileSystem)
    (e : ProofError) (h : groth16_fullProve input = .error e) :
    generateProof input fs = (fs, .error e) := by
  simp only [generateProof, h]

/-- Witness for C8 at the concrete spec scenario 2 input (compute circuit,
`v = 2·10^25`, `T = 10^25`), starting from an empty data directory. -/
theorem spec_C8_witness :
    generateProof (.compute_threshold ((2 * 10 ^ 25 : ℕ) : F) ((10 ^ 25 : ℕ) : F))
      ([] : FileSystem) = (([] : FileSystem), .error .ConstraintUnsatisfiable) :=
  spec_C8_failed_generation_atomic _ ([] : FileSystem) .ConstraintUnsatisfiable (by decide)

/-- C9: the artifact assembled by the bundler conforms to the schema
`{version, timestamp, submitter, framework, claims: {claimId -> {proof,
publicInputVector, label}}}`: it carries submitter and framework fields and a
claims map keyed by claim id, each entry holding the proof of the member, its
public input vector, and a human-readable label. -/
theorem spec_C9_composite_schema (now : String)
    (compute evaluation policy : ProofModel × List F) :
    toSpecArtifact (composeProofs now compute evaluation policy) =
      { version := "1.0"
        timestamp := now
        submitter := "AI Lab Example Inc."
        framework := "EU AI Act + RSP"
        claims :=
          [("compute_threshold",
              ⟨compute.1, compute.2, "Training compute below regulatory threshold"⟩),
           ("evaluation_attestation",
              ⟨evaluation.1, evaluation.2, "All required safety evaluations completed"⟩),
           ("policy_compliance",
              ⟨policy.1, policy.2, "Responsible Scaling Policy requirements met"⟩)] } := rfl

/-- C10: `ComputeThreshold` imposes no range constraint on `privateCompute`
itself; for the field element `p - 1` (representing `-1`), whose canonical
integer representative is at least both `2^252` and the threshold `10^25`,
every constraint including `valid === 1` is satisfiable and a witness
exists — the bit-bounded comparator precondition is not enforced on the
private input. -/
theorem spec_C10_range_gap :
    2 ^ 252 ≤ ((p - 1 : ℕ) : F).val ∧
    ((10 ^ 25 : ℕ) : F).val ≤ ((p - 1 : ℕ) : F).val ∧
    ComputeThreshold_Satisfiable ((p - 1 : ℕ) : F) ((10 ^ 25 : ℕ) : F) :=
  ⟨by decide, by decide,
    ⟨ComputeThreshold_witness ((p - 1 : ℕ) : F) ((10 ^ 25 : ℕ) : F), by decide⟩⟩


/-- Witness for C6 at a concrete composite artifact and the verifier that
rejects every member: the composite reports false overall. -/
theorem spec_C6_witness :
    allValid (verifyCompositeProof (fun _ _ _ => false)
      (composeProofs "2026-01-01" (⟨.compute_threshold, []⟩, [])
        (⟨.evaluation_attestation, []⟩, []) (⟨.policy_compliance, []⟩, []))) = false :=
  (spec_C6_composite_atomicity (fun _ _ _ => false)
      (composeProofs "2026-01-01" (⟨.compute_threshold, []⟩, [])
        (⟨.evaluation_attestation, []⟩, []) (⟨.policy_compliance, []⟩, []))).2 (Or.inl rfl)
